import Mathlib

/-!
Shallow embedding of `shorttext/classifiers/embed/nnlib/VarNNEmbedVecClassification.py`
(class `VarNNEmbeddedVecClassifier`).

Modelling conventions:
* Word-embedding vectors are `List Int` (the numeric field is irrelevant to the
  properties proved here; only zero/non-zero structure and shapes matter).
* The gensim/keras external capabilities (tokenizer, `Tokenizer`/`pad_sequences`,
  `fit`, `predict`, model blobs) are opaque parameters, as the spec declares them
  out of scope.
* A Python `dict` of training data is an insertion-ordered association list
  `List (String × List (Option String))`; an entry `none` models a non-string
  element (the code replaces those by `''`), `some s` a string element.
* File contents are `List Char`; reading a text file applies universal-newline
  translation (`\r\n` and `\r` become `\n`), as Python text mode does.
* Exceptions are modelled with `Except`.
-/

namespace VarNN

abbrev Vec := List Int

abbrev Mat := List Vec

/-- Opaque handle for an external keras model blob. -/
abbrev KModel := Nat

inductive PyExc where
  | modelNotTrained
deriving DecidableEq

/-- The mutable state of a `VarNNEmbeddedVecClassifier` instance.
`wvmodel` is the external word2vec lookup (`word in self.wvmodel` /
`self.wvmodel[word]` are both modelled by one `Option`-valued map);
`model` is `none` while the `self.model` attribute is unset. -/
structure Classifier where
  wvmodel : String → Option Vec
  vecsize : Nat
  maxlen : Nat
  with_gensim : Bool
  trained : Bool
  classlabels : List String := []
  model : Option KModel := none

/-- `word_to_embedvec`: the looked-up vector, or `np.zeros(self.vecsize)` when
the word is not in the embedding model. -/
def word_to_embedvec (c : Classifier) (word : String) : Vec :=
  match c.wvmodel word with
  | some v => v
  | none => List.replicate c.vecsize 0

/-- The matrix-filling loop shared by `shorttext_to_matrix` (lines 241-243) and
`convert_trainingdata_matrix` (lines 118-121): a zero matrix of shape
`(maxlen, vecsize)` whose row `j` is overwritten by the embedding of token `j`
for `j < min maxlen (number of tokens)`. -/
def matrixFromTokens (c : Classifier) (tokens : List String) : Mat :=
  (List.range c.maxlen).map (fun j =>
    if j < min c.maxlen tokens.length then word_to_embedvec c (tokens.getD j "")
    else List.replicate c.vecsize 0)

/-- `shorttext_to_matrix`, with the external tokenizer passed explicitly. -/
def shorttext_to_matrix (tokenize : String → List String) (c : Classifier)
    (s : String) : Mat :=
  matrixFromTokens c (tokenize s)

/-- `shorttext if type(shorttext)==str else ''` (line 105). -/
def normalizeText : Option String → String
  | some s => s
  | none => ""

/-- The example sequence iterated by the double loop of
`convert_trainingdata_matrix` (lines 103-112): labels in corpus order, and for
each label its texts in order, each paired with its label. -/
def conv_rows (classdict : List (String × List (Option String))) :
    List (String × Option String) :=
  classdict.flatMap (fun p => p.2.map (fun e => (p.1, e)))

/-- Lookup in a Python dict built from a list of pairs: on duplicate keys the
last pair wins; `none` models a missing key. -/
def pyDict {β : Type} (prs : List (String × β)) : String → Option β :=
  fun k => ((prs.filter (fun p => p.1 == k)).getLast?).map Prod.snd

/-- `category_bucket = [0]*len(classlabels); category_bucket[idx] = 1`
(lines 106-107). -/
def oneHotBucket (n k : Nat) : List Nat := (List.replicate n 0).set k 1

/-- `classlabels = classdict.keys()` (line 97). -/
def conv_classlabels (classdict : List (String × List (Option String))) :
    List String :=
  classdict.map Prod.fst

/-- The `indices` list built by the loop, one `category_bucket` per example;
`lblidx_dict = dict(zip(classlabels, range(len(classlabels))))` (line 98). -/
def conv_indices (classdict : List (String × List (Option String))) :
    List (List Nat) :=
  let labels := conv_classlabels classdict
  let lblidx := pyDict (labels.zip (List.range labels.length))
  (conv_rows classdict).map (fun r => oneHotBucket labels.length ((lblidx r.1).getD 0))

/-- The `phrases` list in the non-gensim branch: `tokenize(shorttext)` per
example (line 112). -/
def conv_phrases_tok (tokenize : String → List String)
    (classdict : List (String × List (Option String))) : List (List String) :=
  (conv_rows classdict).map (fun r => tokenize (normalizeText r.2))

/-- The `phrases` list in the gensim branch: the raw text per example
(line 110). -/
def conv_phrases_raw (classdict : List (String × List (Option String))) :
    List String :=
  (conv_rows classdict).map (fun r => normalizeText r.2)

/-- `train_embedvec` (lines 118-121): one embedded matrix per phrase. -/
def conv_train_embedvec (tokenize : String → List String) (c : Classifier)
    (classdict : List (String × List (Option String))) : List Mat :=
  (conv_phrases_tok tokenize classdict).map (matrixFromTokens c)

/-- The middle component of `convert_trainingdata_matrix`'s return value:
raw phrases in the gensim branch (line 115), the embedded tensor otherwise
(line 124). -/
inductive TrainData where
  | gensim (phrases : List String)
  | matrices (tensors : List Mat)

/-- `convert_trainingdata_matrix` (lines 86-124). -/
def convert_trainingdata_matrix (tokenize : String → List String)
    (c : Classifier) (classdict : List (String × List (Option String))) :
    List String × TrainData × List (List Nat) :=
  if c.with_gensim then
    (conv_classlabels classdict, TrainData.gensim (conv_phrases_raw classdict),
      conv_indices classdict)
  else
    (conv_classlabels classdict,
      TrainData.matrices (conv_train_embedvec tokenize c classdict),
      conv_indices classdict)

/-- `train` (lines 126-162). `self.classlabels` is assigned by the tuple
unpacking (line 144/155) before `kerasmodel.fit` runs (line 152/158); the
external `fit` capabilities (`fitSeq` for the gensim path after the external
`Tokenizer`/`pad_sequences` step `textsToPadSeq`, `fitMat` otherwise) may
raise, in which case `self.model` and `self.trained` (lines 161-162) are
never assigned. -/
def train (tokenize : String → List String)
    (textsToPadSeq : Nat → List String → List (List Nat))
    (fitSeq : List (List Nat) → List (List Nat) → Except Unit Unit)
    (fitMat : List Mat → List (List Nat) → Except Unit Unit)
    (c : Classifier) (classdict : List (String × List (Option String)))
    (kerasmodel : KModel) : Classifier × Except Unit Unit :=
  let c1 := { c with classlabels := (convert_trainingdata_matrix tokenize c classdict).1 }
  let fitRes :=
    if c.with_gensim then
      fitSeq (textsToPadSeq c.maxlen (conv_phrases_raw classdict)) (conv_indices classdict)
    else
      fitMat (conv_train_embedvec tokenize c classdict) (conv_indices classdict)
  match fitRes with
  | Except.error err => (c1, Except.error err)
  | Except.ok _ => ({ c1 with model := some kerasmodel, trained := true }, Except.ok ())

/-- The characters removed by Python's `str.strip()`. -/
def isPySpace (ch : Char) : Bool :=
  ch = ' ' || ch = '\t' || ch = '\n' || ch = '\r' || ch = '\x0B' || ch = '\x0C'

/-- Python `s.strip()` on the character list of a string. -/
def pyStripL (cs : List Char) : List Char :=
  ((cs.dropWhile isPySpace).reverse.dropWhile isPySpace).reverse

/-- Python `'\n'.join(...)` on character lists. -/
def joinNlL : List (List Char) → List Char
  | [] => []
  | [l] => l
  | l :: l2 :: rest => l ++ '\n' :: joinNlL (l2 :: rest)

/-- Helper for `pyReadlines`: accumulates the current (reversed) line. -/
def linesKeepAux (acc : List Char) : List Char → List (List Char)
  | [] => if acc.isEmpty then [] else [acc.reverse]
  | ch :: rest =>
    if ch = '\n' then (acc.reverse ++ ['\n']) :: linesKeepAux [] rest
    else linesKeepAux (ch :: acc) rest

/-- Python `file.readlines()`: splits into lines, each keeping its trailing
`'\n'`; a final line without a newline is kept, the empty file has no lines. -/
def pyReadlines (cs : List Char) : List (List Char) := linesKeepAux [] cs

/-- Universal-newline translation performed by reading a file in text mode:
`"\r\n"` and a lone `'\r'` both become `'\n'`. -/
def normNewlines : List Char → List Char
  | [] => []
  | '\r' :: '\n' :: rest => '\n' :: normNewlines rest
  | '\r' :: rest => '\n' :: normNewlines rest
  | ch :: rest => ch :: normNewlines rest

/-- The files written under one name prefix: the keras blob (`.json`/`.h5`,
via `kerasio`), `_classlabels.txt`, and the optional `_config.json`, the
latter modelled by the boolean it stores (`none` = file absent). -/
structure SavedFiles where
  modelBlob : Option KModel
  classlabelsFile : List Char
  configFile : Option Bool

/-- `savemodel` (lines 164-185): guard on `self.trained`, then write the model
blob, the newline-joined label list, and the config JSON. The body assigns no
instance attribute, so the classifier comes back unchanged. -/
def savemodel (c : Classifier) : Except PyExc (Classifier × SavedFiles) :=
  if c.trained = false then Except.error PyExc.modelNotTrained
  else
    Except.ok (c,
      { modelBlob := c.model,
        classlabelsFile := joinNlL (c.classlabels.map String.data),
        configFile := some c.with_gensim })

/-- `loadmodel` (lines 187-212): set `self.model` from the blob, read the label
file's lines and strip each, read `with_gensim` from the config file when it
exists and default it to `False` otherwise, and set `self.trained = True`. -/
def loadmodel (c : Classifier) (files : SavedFiles) : Classifier :=
  { c with
    model := files.modelBlob
    classlabels := (pyReadlines (normNewlines files.classlabelsFile)).map
      (fun l => String.mk (pyStripL l))
    with_gensim := files.configFile.getD false
    trained := true }

/-- `score` (lines 258-290): guard on `self.trained`; build the inference input
(the external `process_text` pipeline `processTextExt` in the gensim branch, a
batch of one embedded matrix otherwise), call the external `predict`
capability, and zip the first prediction row onto the class labels. -/
def score (processTextExt : Nat → String → List (List Nat))
    (predictSeq : List (List Nat) → List Vec) (predictMat : List Mat → List Vec)
    (tokenize : String → List String) (c : Classifier) (s : String) :
    Except PyExc (List (String × Int)) :=
  if c.trained = false then Except.error PyExc.modelNotTrained
  else
    let predictions :=
      if c.with_gensim then predictSeq (processTextExt c.maxlen s)
      else predictMat [shorttext_to_matrix tokenize c s]
    let preds0 := predictions.getD 0 []
    Except.ok (c.classlabels.enum.map (fun p => (p.2, preds0.getD p.1 0)))

/-- A label that survives the `'\n'.join` / `readlines` / `strip` round trip:
nonempty, free of `'\n'` and `'\r'`, and not starting or ending in
strip-removable whitespace. -/
def goodLabelL (cs : List Char) : Bool :=
  !cs.isEmpty && cs.all (fun ch => !(ch = '\n') && !(ch = '\r')) &&
    !isPySpace (cs.headD 'x') && !isPySpace (cs.getLastD 'x')

/-- `goodLabelL` on a string's characters. -/
def goodLabel (s : String) : Bool := goodLabelL s.data

/-! ### Helper lemmas -/

lemma oneHotBucket_length (n k : Nat) : (oneHotBucket n k).length = n := by
  simp [oneHotBucket]

lemma oneHotBucket_count_one : ∀ n k : Nat, k < n → (oneHotBucket n k).count 1 = 1 := by
  intro n
  induction n with
  | zero => intro k hk; exact absurd hk (Nat.not_lt_zero k)
  | succ m ih =>
    intro k hk
    cases k with
    | zero =>
      simp [oneHotBucket, List.replicate_succ, List.count_cons_self,
        List.count_replicate]
    | succ j =>
      have hj : j < m := Nat.lt_of_succ_lt_succ hk
      have := ih j hj
      simp only [oneHotBucket, List.replicate_succ, List.set_cons_succ] at *
      rw [List.count_cons_of_ne (by decide)]
      exact this

lemma oneHotBucket_count_zero : ∀ n k : Nat, k < n → (oneHotBucket n k).count 0 = n - 1 := by
  intro n
  induction n with
  | zero => intro k hk; exact absurd hk (Nat.not_lt_zero k)
  | succ m ih =>
    intro k hk
    cases k with
    | zero =>
      simp [oneHotBucket, List.replicate_succ, List.count_replicate,
        List.count_cons_of_ne (by decide : (0 : Nat) ≠ 1)]
    | succ j =>
      have hj : j < m := Nat.lt_of_succ_lt_succ hk
      have := ih j hj
      simp only [oneHotBucket, List.replicate_succ, List.set_cons_succ] at *
      rw [List.count_cons_self, this]
      omega

lemma oneHotBucket_getElem (n k : Nat) (h : k < n) : (oneHotBucket n k)[k]? = some 1 := by
  have : k < (List.replicate n (0 : Nat)).length := by simpa using h
  simp [oneHotBucket, List.getElem?_set_self this]

lemma pyDict_zip_range' :
    ∀ (labels : List String) (s : Nat) (lab : String), labels.Nodup → lab ∈ labels →
      ∃ k, labels[k]? = some lab ∧
        pyDict (labels.zip (List.range' s labels.length)) lab = some (s + k) := by
  intro labels
  induction labels with
  | nil => intro s lab _ hmem; simp at hmem
  | cons a tl ih =>
    intro s lab hnd hmem
    have hzip : (a :: tl).zip (List.range' s (a :: tl).length) =
        (a, s) :: tl.zip (List.range' (s + 1) tl.length) := by
      simp [List.range'_succ]
    by_cases hla : lab = a
    · subst hla
      have hnotin : lab ∉ tl := (List.nodup_cons.mp hnd).1
      refine ⟨0, by simp, ?_⟩
      unfold pyDict
      rw [hzip, List.filter_cons_of_pos (by simp)]
      have hnil : (tl.zip (List.range' (s + 1) tl.length)).filter
          (fun p => p.1 == lab) = [] := by
        rw [List.filter_eq_nil_iff]
        intro p hp
        have : p.1 ∈ tl := (List.of_mem_zip (by simpa using hp)).1
        simp only [beq_iff_eq]
        intro hcontra
        exact hnotin (hcontra ▸ this)
      simp [hnil]
    · have hmem' : lab ∈ tl := by
        rcases List.mem_cons.mp hmem with h | h
        · exact absurd h hla
        · exact h
      obtain ⟨k, hk, hdict⟩ := ih (s + 1) lab (List.nodup_cons.mp hnd).2 hmem'
      refine ⟨k + 1, by simpa using hk, ?_⟩
      unfold pyDict at hdict ⊢
      rw [hzip, List.filter_cons_of_neg (by simp [Ne.symm hla])]
      rw [hdict]
      congr 1
      omega

lemma pyDict_zip_range (labels : List String) (lab : String) (hnd : labels.Nodup)
    (hmem : lab ∈ labels) :
    ∃ k, labels[k]? = some lab ∧
      pyDict (labels.zip (List.range labels.length)) lab = some k := by
  obtain ⟨k, hk, hdict⟩ := pyDict_zip_range' labels 0 lab hnd hmem
  rw [List.range_eq_range']
  exact ⟨k, hk, by simpa using hdict⟩

lemma conv_rows_label_mem (classdict : List (String × List (Option String)))
    (lab : String) (e : Option String) (hmem : (lab, e) ∈ conv_rows classdict) :
    lab ∈ classdict.map Prod.fst := by
  unfold conv_rows at hmem
  rcases List.mem_flatMap.mp hmem with ⟨p, hp, hin⟩
  rcases List.mem_map.mp hin with ⟨e', _, heq⟩
  have : p.1 = lab := congrArg Prod.fst heq
  exact this ▸ List.mem_map_of_mem Prod.fst hp

lemma conv_indices_spec (classdict : List (String × List (Option String)))
    (hnd : (classdict.map Prod.fst).Nodup) (i : Nat) (lab : String) (e : Option String)
    (hrow : (conv_rows classdict)[i]? = some (lab, e)) :
    ∃ k, (classdict.map Prod.fst)[k]? = some lab ∧
      (conv_indices classdict)[i]? =
        some (oneHotBucket (classdict.map Prod.fst).length k) := by
  have hmem : (lab, e) ∈ conv_rows classdict := List.getElem?_mem hrow
  have hlab : lab ∈ classdict.map Prod.fst := conv_rows_label_mem classdict lab e hmem
  obtain ⟨k, hk, hdict⟩ := pyDict_zip_range (classdict.map Prod.fst) lab hnd hlab
  refine ⟨k, hk, ?_⟩
  simp only [conv_indices, conv_classlabels, List.getElem?_map, hrow, Option.map_some']
  rw [hdict]
  rfl

lemma matrixFromTokens_nil (c : Classifier) :
    matrixFromTokens c [] = List.replicate c.maxlen (List.replicate c.vecsize 0) := by
  unfold matrixFromTokens
  simp [List.map_const']

/-! ### Concrete instances used in witnesses -/

/-- Helper for the concrete example tokenizer: split on spaces, drop empty
tokens; `acc` is the current token reversed. -/
def tokExAux (acc : List Char) : List Char → List String
  | [] => if acc.isEmpty then [] else [String.mk acc.reverse]
  | ch :: rest =>
    if ch = ' ' then
      if acc.isEmpty then tokExAux [] rest
      else String.mk acc.reverse :: tokExAux [] rest
    else tokExAux (ch :: acc) rest

/-- A tiny concrete tokenizer used in witnesses: whitespace splitting. -/
def tokEx (s : String) : List String := tokExAux [] s.data

/-- A tiny concrete embedding model: only `"algebra"` is present. -/
def wvEx : String → Option Vec := fun w => if w = "algebra" then some [1, 0] else none

/-- A concrete untrained classifier over `wvEx`. -/
def cEx : Classifier :=
  { wvmodel := wvEx, vecsize := 2, maxlen := 3, with_gensim := false, trained := false }

/-- The example corpus of the spec (section 8), with one malformed entry added
under a third label. -/
def classdictEx : List (String × List (Option String)) :=
  [("math", [some "algebra help"]), ("bio", [some "cell wall"]), ("bad", [none])]

/-- A concrete trained classifier. -/
def cExT : Classifier :=
  { wvmodel := wvEx, vecsize := 2, maxlen := 3, with_gensim := false,
    trained := true, classlabels := ["math", "bio"], model := some 0 }

/-- A concrete external `predict` capability for embedded matrices. -/
def predictMatEx : List Mat → List Vec := fun _ => [[7, 3]]

/-- A concrete external `predict` capability for padded sequences. -/
def predictSeqEx : List (List Nat) → List Vec := fun _ => [[0]]

/-- A concrete external `process_text` pipeline. -/
def processTextEx : Nat → String → List (List Nat) := fun _ _ => [[]]

/-- A concrete external `Tokenizer`/`pad_sequences` pipeline for training. -/
def padSeqEx : Nat → List String → List (List Nat) := fun _ _ => []

/-- A concrete always-failing external `fit` on padded sequences. -/
def fitSeqFailEx : List (List Nat) → List (List Nat) → Except Unit Unit :=
  fun _ _ => Except.error ()

/-- A concrete always-failing external `fit` on embedded tensors. -/
def fitMatFailEx : List Mat → List (List Nat) → Except Unit Unit :=
  fun _ _ => Except.error ()

/-- A concrete persisted artifact that lacks the optional config file. -/
def filesEx : SavedFiles :=
  { modelBlob := some 0, classlabelsFile := ("math\nbio").data, configFile := none }

/-- The artifact written by `savemodel` for `cExT`. -/
def filesExT : SavedFiles :=
  { modelBlob := some 0,
    classlabelsFile := joinNlL (["math", "bio"].map String.data),
    configFile := some false }

/-! ### Claims -/

lemma convert_fst_eq (tokenize : String → List String) (c : Classifier)
    (classdict : List (String × List (Option String))) :
    (convert_trainingdata_matrix tokenize c classdict).1 = classdict.map Prod.fst := by
  unfold convert_trainingdata_matrix conv_classlabels
  split <;> rfl

/-- Claim C1: for a corpus with distinct labels, every row of the target tensor
returned by `convert_trainingdata_matrix` is one-hot: it has exactly one entry
equal to 1 and `N - 1` entries equal to 0, and the 1 sits at the index assigned
to the example's label in corpus iteration order. -/
theorem c1_one_hot_targets (tokenize : String → List String) (c : Classifier)
    (classdict : List (String × List (Option String)))
    (hnd : (classdict.map Prod.fst).Nodup) :
    ((convert_trainingdata_matrix tokenize c classdict).2.2).length =
      (conv_rows classdict).length ∧
    ∀ (i : Nat) (lab : String) (e : Option String),
      (conv_rows classdict)[i]? = some (lab, e) →
      ∃ k : Nat, ((convert_trainingdata_matrix tokenize c classdict).1)[k]? = some lab ∧
        ((convert_trainingdata_matrix tokenize c classdict).2.2)[i]? =
          some (oneHotBucket (classdict.map Prod.fst).length k) ∧
        (oneHotBucket (classdict.map Prod.fst).length k).length =
          (classdict.map Prod.fst).length ∧
        (oneHotBucket (classdict.map Prod.fst).length k).count 1 = 1 ∧
        (oneHotBucket (classdict.map Prod.fst).length k).count 0 =
          (classdict.map Prod.fst).length - 1 ∧
        (oneHotBucket (classdict.map Prod.fst).length k)[k]? = some 1 := by
  have h1 : (convert_trainingdata_matrix tokenize c classdict).1 =
      classdict.map Prod.fst := by
    unfold convert_trainingdata_matrix conv_classlabels; split <;> rfl
  have h2 : (convert_trainingdata_matrix tokenize c classdict).2.2 =
      conv_indices classdict := by
    unfold convert_trainingdata_matrix; split <;> rfl
  constructor
  · rw [h2]; unfold conv_indices; simp
  · intro i lab e hrow
    obtain ⟨k, hk, hidx⟩ := conv_indices_spec classdict hnd i lab e hrow
    have hklt : k < (classdict.map Prod.fst).length := by
      rcases List.getElem?_eq_some_iff.mp hk with ⟨h, _⟩
      exact h
    exact ⟨k, h1 ▸ hk, h2 ▸ hidx, oneHotBucket_length _ _,
      oneHotBucket_count_one _ _ hklt, oneHotBucket_count_zero _ _ hklt,
      oneHotBucket_getElem _ _ hklt⟩

theorem c1_one_hot_targets_witness :
    ((convert_trainingdata_matrix tokEx cEx classdictEx).2.2).length =
      (conv_rows classdictEx).length :=
  (c1_one_hot_targets tokEx cEx classdictEx (by decide)).1

/-- Claim C7: the label list returned by `convert_trainingdata_matrix` is
exactly the sequence of keys of the corpus in iteration order, with no sorting
or deduplication applied. -/
theorem c7_labels_iteration_order (tokenize : String → List String) (c : Classifier)
    (classdict : List (String × List (Option String))) :
    (convert_trainingdata_matrix tokenize c classdict).1 = classdict.map Prod.fst :=
  convert_fst_eq tokenize c classdict

/-- Claim C3: `word_to_embedvec` returns the zero vector of length `vecsize`
for a token absent from the embedding model, and the model's vector for a
token that is present. -/
theorem c3_embedvec_miss_zero (c : Classifier) (w : String) :
    (c.wvmodel w = none → word_to_embedvec c w = List.replicate c.vecsize 0) ∧
    (∀ v, c.wvmodel w = some v → word_to_embedvec c w = v) := by
  constructor
  · intro h; simp [word_to_embedvec, h]
  · intro v h; simp [word_to_embedvec, h]

theorem c3_embedvec_miss_zero_witness :
    word_to_embedvec cEx "unknown" = List.replicate cEx.vecsize 0 ∧
    word_to_embedvec cEx "algebra" = [1, 0] :=
  ⟨(c3_embedvec_miss_zero cEx "unknown").1 (by decide),
   (c3_embedvec_miss_zero cEx "algebra").2 [1, 0] (by decide)⟩

/-- Claim C2: the matrix built by `shorttext_to_matrix` always has shape
`(maxlen, vecsize)` (for the row lengths, provided the embedding model's
vectors have length `vecsize`); rows from the token count up to `maxlen` are
exactly zero; for a text with more than `maxlen` tokens only the first
`maxlen` tokens are embedded, with no failure; the empty token list gives the
all-zero matrix; and `convert_trainingdata_matrix` builds exactly this matrix
for each training example. -/
theorem c2_matrix_shape_padding (tokenize : String → List String) (c : Classifier)
    (s : String) (classdict : List (String × List (Option String)))
    (hwv : ∀ (w : String) (v : Vec), c.wvmodel w = some v → v.length = c.vecsize) :
    (shorttext_to_matrix tokenize c s).length = c.maxlen ∧
    (∀ row ∈ shorttext_to_matrix tokenize c s, row.length = c.vecsize) ∧
    (∀ i : Nat, (tokenize s).length ≤ i → i < c.maxlen →
      (shorttext_to_matrix tokenize c s)[i]? = some (List.replicate c.vecsize 0)) ∧
    (∀ i : Nat, i < min c.maxlen (tokenize s).length →
      (shorttext_to_matrix tokenize c s)[i]? =
        some (word_to_embedvec c ((tokenize s).getD i ""))) ∧
    (tokenize s = [] →
      shorttext_to_matrix tokenize c s =
        List.replicate c.maxlen (List.replicate c.vecsize 0)) ∧
    conv_train_embedvec tokenize c classdict =
      (conv_rows classdict).map (fun r => shorttext_to_matrix tokenize c (normalizeText r.2)) := by
  refine ⟨?_, ?_, ?_, ?_, ?_, ?_⟩
  · simp [shorttext_to_matrix, matrixFromTokens]
  · intro row hrow
    simp only [shorttext_to_matrix, matrixFromTokens, List.mem_map] at hrow
    obtain ⟨j, _, hj⟩ := hrow
    by_cases hlt : j < min c.maxlen (tokenize s).length
    · rw [if_pos hlt] at hj
      subst hj
      unfold word_to_embedvec
      cases hcase : c.wvmodel ((tokenize s).getD j "") with
      | some v => exact hwv _ v hcase
      | none => simp
    · rw [if_neg hlt] at hj
      subst hj
      simp
  · intro i hTi hi
    simp only [shorttext_to_matrix, matrixFromTokens, List.getElem?_map,
      List.getElem?_range hi, Option.map_some']
    rw [if_neg (by omega)]
  · intro i hi
    have hi' : i < c.maxlen := lt_of_lt_of_le hi (Nat.min_le_left _ _)
    simp only [shorttext_to_matrix, matrixFromTokens, List.getElem?_map,
      List.getElem?_range hi', Option.map_some']
    rw [if_pos hi]
  · intro h
    simp only [shorttext_to_matrix, h]
    exact matrixFromTokens_nil c
  · unfold conv_train_embedvec conv_phrases_tok
    rw [List.map_map]
    rfl

theorem c2_matrix_shape_padding_witness :
    (shorttext_to_matrix tokEx cEx "algebra help").length = cEx.maxlen :=
  (c2_matrix_shape_padding tokEx cEx "algebra help" classdictEx (by
    intro w v h
    by_cases hw : w = "algebra"
    · subst hw
      have h' : some ([1, 0] : Vec) = some v := by rw [← h]; rfl
      injection h' with h''
      rw [← h'']
      rfl
    · exact absurd h (by simp [cEx, wvEx, hw]))).1

/-- Claim C8: a non-string corpus entry is substituted by the empty text
without failing: its phrase is the empty token list, its embedded matrix is
the all-zero matrix, and it still contributes a one-hot target row at its
label's index. -/
theorem c8_nonstring_entries (tokenize : String → List String) (c : Classifier)
    (classdict : List (String × List (Option String)))
    (hnd : (classdict.map Prod.fst).Nodup) (h0 : tokenize "" = [])
    (i : Nat) (lab : String)
    (hrow : (conv_rows classdict)[i]? = some (lab, none)) :
    (conv_phrases_tok tokenize classdict)[i]? = some [] ∧
    (conv_train_embedvec tokenize c classdict)[i]? =
      some (List.replicate c.maxlen (List.replicate c.vecsize 0)) ∧
    ∃ k : Nat, (classdict.map Prod.fst)[k]? = some lab ∧
      (conv_indices classdict)[i]? =
        some (oneHotBucket (classdict.map Prod.fst).length k) ∧
      (oneHotBucket (classdict.map Prod.fst).length k).count 1 = 1 := by
  have hphrase : (conv_phrases_tok tokenize classdict)[i]? = some [] := by
    simp only [conv_phrases_tok, List.getElem?_map, hrow, Option.map_some',
      normalizeText]
    rw [h0]
  refine ⟨hphrase, ?_, ?_⟩
  · simp only [conv_train_embedvec, List.getElem?_map, hphrase, Option.map_some']
    rw [matrixFromTokens_nil]
  · obtain ⟨k, hk, hidx⟩ := conv_indices_spec classdict hnd i lab none hrow
    have hklt : k < (classdict.map Prod.fst).length := by
      rcases List.getElem?_eq_some_iff.mp hk with ⟨h, _⟩
      exact h
    exact ⟨k, hk, hidx, oneHotBucket_count_one _ _ hklt⟩

theorem c8_nonstring_entries_witness :
    (conv_phrases_tok tokEx classdictEx)[2]? = some [] ∧
    (conv_train_embedvec tokEx cEx classdictEx)[2]? =
      some (List.replicate cEx.maxlen (List.replicate cEx.vecsize 0)) :=
  have h := c8_nonstring_entries tokEx cEx classdictEx (by decide) (by decide)
    2 "bad" (by decide)
  ⟨h.1, h.2.1⟩

/-- Claim C5: `score` and `savemodel` raise `ModelNotTrainedException` exactly
when the `trained` flag is false, and never when it is true. -/
theorem c5_not_trained_guard (processTextExt : Nat → String → List (List Nat))
    (predictSeq : List (List Nat) → List Vec) (predictMat : List Mat → List Vec)
    (tokenize : String → List String) (c : Classifier) (s : String) :
    (c.trained = false →
      score processTextExt predictSeq predictMat tokenize c s =
        Except.error PyExc.modelNotTrained ∧
      savemodel c = Except.error PyExc.modelNotTrained) ∧
    (c.trained = true →
      score processTextExt predictSeq predictMat tokenize c s ≠
        Except.error PyExc.modelNotTrained ∧
      savemodel c ≠ Except.error PyExc.modelNotTrained) := by
  constructor
  · intro h
    constructor <;> simp [score, savemodel, h]
  · intro h
    constructor <;> simp [score, savemodel, h]

theorem c5_not_trained_guard_witness :
    score processTextEx predictSeqEx predictMatEx tokEx cEx "help" =
      Except.error PyExc.modelNotTrained ∧
    savemodel cEx = Except.error PyExc.modelNotTrained ∧
    score processTextEx predictSeqEx predictMatEx tokEx cExT "help" ≠
      Except.error PyExc.modelNotTrained ∧
    savemodel cExT ≠ Except.error PyExc.modelNotTrained :=
  have h1 := (c5_not_trained_guard processTextEx predictSeqEx predictMatEx tokEx
    cEx "help").1 rfl
  have h2 := (c5_not_trained_guard processTextEx predictSeqEx predictMatEx tokEx
    cExT "help").2 rfl
  ⟨h1.1, h1.2, h2.1, h2.2⟩

/-- Claim C6: when the required model and classlabels files exist but the
optional config file is absent, `loadmodel` succeeds, defaults `with_gensim`
to false, and sets `trained` to true. -/
theorem c6_missing_config_defaults (c : Classifier) (files : SavedFiles)
    (h : files.configFile = none) :
    (loadmodel c files).with_gensim = false ∧ (loadmodel c files).trained = true := by
  constructor
  · simp [loadmodel, h]
  · rfl

theorem c6_missing_config_defaults_witness :
    (loadmodel cEx filesEx).with_gensim = false ∧
    (loadmodel cEx filesEx).trained = true :=
  c6_missing_config_defaults cEx filesEx rfl

/-- Claim C9: `train` is not atomic on failure: when the external `fit` call
raises on an untrained classifier, the `trained` flag is still false and the
`model` attribute is still unset (so `score` and `savemodel` still raise
`ModelNotTrainedException`), but `classlabels` has already been overwritten
with the labels of the corpus of the failed call. -/
theorem c9_train_not_atomic (tokenize : String → List String)
    (textsToPadSeq : Nat → List String → List (List Nat))
    (fitSeq : List (List Nat) → List (List Nat) → Except Unit Unit)
    (fitMat : List Mat → List (List Nat) → Except Unit Unit)
    (c : Classifier) (classdict : List (String × List (Option String)))
    (kerasmodel : KModel) (err : Unit)
    (huntrained : c.trained = false)
    (hfail : (train tokenize textsToPadSeq fitSeq fitMat c classdict kerasmodel).2 =
      Except.error err)
    (processTextExt : Nat → String → List (List Nat))
    (predictSeq : List (List Nat) → List Vec) (predictMat : List Mat → List Vec)
    (s : String) :
    (train tokenize textsToPadSeq fitSeq fitMat c classdict kerasmodel).1.trained = false ∧
    (train tokenize textsToPadSeq fitSeq fitMat c classdict kerasmodel).1.model = c.model ∧
    (train tokenize textsToPadSeq fitSeq fitMat c classdict kerasmodel).1.classlabels =
      classdict.map Prod.fst ∧
    score processTextExt predictSeq predictMat tokenize
      (train tokenize textsToPadSeq fitSeq fitMat c classdict kerasmodel).1 s =
      Except.error PyExc.modelNotTrained ∧
    savemodel (train tokenize textsToPadSeq fitSeq fitMat c classdict kerasmodel).1 =
      Except.error PyExc.modelNotTrained := by
  cases hcase : (if c.with_gensim then
      fitSeq (textsToPadSeq c.maxlen (conv_phrases_raw classdict)) (conv_indices classdict)
    else
      fitMat (conv_train_embedvec tokenize c classdict) (conv_indices classdict)) with
  | ok u =>
    rw [train] at hfail
    simp only [hcase] at hfail
    exact absurd hfail (by simp)
  | error e2 =>
    have htrain : train tokenize textsToPadSeq fitSeq fitMat c classdict kerasmodel =
        ({ c with classlabels := (convert_trainingdata_matrix tokenize c classdict).1 },
          Except.error e2) := by
      rw [train]
      simp only [hcase]
    rw [htrain]
    refine ⟨huntrained, rfl, ?_, ?_, ?_⟩
    · exact convert_fst_eq tokenize c classdict
    · simp [score, huntrained]
    · simp [savemodel, huntrained]

theorem c9_train_not_atomic_witness :
    (train tokEx padSeqEx fitSeqFailEx fitMatFailEx cEx classdictEx 0).1.trained = false ∧
    (train tokEx padSeqEx fitSeqFailEx fitMatFailEx cEx classdictEx 0).1.model = cEx.model ∧
    (train tokEx padSeqEx fitSeqFailEx fitMatFailEx cEx classdictEx 0).1.classlabels =
      classdictEx.map Prod.fst :=
  have h := c9_train_not_atomic tokEx padSeqEx fitSeqFailEx fitMatFailEx cEx
    classdictEx 0 () rfl rfl processTextEx predictSeqEx predictMatEx "x"
  ⟨h.1, h.2.1, h.2.2.1⟩

/-- Claim C10: a successful `savemodel` call leaves every field of the
classifier unchanged; its only effects are the three files it writes (the
model blob, the newline-joined label list, and the config flag). -/
theorem c10_savemodel_frame (c c' : Classifier) (files : SavedFiles)
    (h : savemodel c = Except.ok (c', files)) :
    c'.wvmodel = c.wvmodel ∧ c'.vecsize = c.vecsize ∧ c'.maxlen = c.maxlen ∧
    c'.with_gensim = c.with_gensim ∧ c'.trained = c.trained ∧
    c'.classlabels = c.classlabels ∧ c'.model = c.model ∧
    files.modelBlob = c.model ∧
    files.classlabelsFile = joinNlL (c.classlabels.map String.data) ∧
    files.configFile = some c.with_gensim := by
  unfold savemodel at h
  by_cases ht : c.trained = false
  · rw [if_pos ht] at h
    exact absurd h (by simp)
  · rw [if_neg ht] at h
    have hp := Except.ok.inj h
    have h1 : c = c' := congrArg Prod.fst hp
    have h2 := congrArg Prod.snd hp
    subst h1
    subst h2
    exact ⟨rfl, rfl, rfl, rfl, rfl, rfl, rfl, rfl, rfl, rfl⟩

theorem c10_savemodel_frame_witness :
    cExT.trained = true ∧
    filesExT.modelBlob = cExT.model ∧ filesExT.configFile = some cExT.with_gensim :=
  have h := c10_savemodel_frame cExT cExT filesExT rfl
  ⟨rfl, h.2.2.2.2.2.2.2.1, h.2.2.2.2.2.2.2.2.2⟩

/-! ### Round-trip lemmas for the label file (claim C4) -/

lemma normNewlines_cons_of_ne (ch : Char) (rest : List Char) (hc : ch ≠ '\r') :
    normNewlines (ch :: rest) = ch :: normNewlines rest := by
  cases rest with
  | nil => simp [normNewlines, hc]
  | cons c2 t => simp [normNewlines, hc]

lemma normNewlines_of_no_cr : ∀ cs : List Char, '\r' ∉ cs → normNewlines cs = cs := by
  intro cs
  induction cs with
  | nil => intro _; rfl
  | cons ch rest ih =>
    intro h
    have hc : ch ≠ '\r' := fun hcc => h (hcc ▸ List.mem_cons_self ch rest)
    have hrest : '\r' ∉ rest := fun hr => h (List.mem_cons_of_mem ch hr)
    rw [normNewlines_cons_of_ne ch rest hc, ih hrest]

lemma goodLabelL_parts {cs : List Char} (h : goodLabelL cs = true) :
    cs ≠ [] ∧ '\n' ∉ cs ∧ '\r' ∉ cs ∧
    isPySpace (cs.headD 'x') = false ∧ isPySpace (cs.getLastD 'x') = false := by
  simp only [goodLabelL, Bool.and_eq_true, Bool.not_eq_true', List.all_eq_true] at h
  obtain ⟨⟨⟨h1, h2⟩, h3⟩, h4⟩ := h
  refine ⟨?_, ?_, ?_, h3, h4⟩
  · intro hcs
    subst hcs
    simp at h1
  · intro hmem
    have := h2 '\n' hmem
    simp at this
  · intro hmem
    have := h2 '\r' hmem
    simp at this

lemma dropWhile_eq_self_of_head {cs : List Char} (hne : cs ≠ [])
    (h : isPySpace (cs.headD 'x') = false) : cs.dropWhile isPySpace = cs := by
  cases cs with
  | nil => exact absurd rfl hne
  | cons ch rest =>
    have : isPySpace ch = false := h
    rw [List.dropWhile_cons, this]
    simp

lemma headD_reverse (cs : List Char) (d : Char) :
    cs.reverse.headD d = cs.getLastD d := by
  rw [List.headD_eq_head?, List.head?_reverse, List.getLastD_eq_getLast?]

lemma pyStripL_of_good {cs : List Char} (h : goodLabelL cs = true) :
    pyStripL cs = cs := by
  obtain ⟨hne, _, _, hhead, hlast⟩ := goodLabelL_parts h
  unfold pyStripL
  rw [dropWhile_eq_self_of_head hne hhead]
  have hrevne : cs.reverse ≠ [] := by simpa using hne
  have hrevhead : isPySpace (cs.reverse.headD 'x') = false := by
    rw [headD_reverse]; exact hlast
  rw [dropWhile_eq_self_of_head hrevne hrevhead, List.reverse_reverse]

lemma pyStripL_append_nl {cs : List Char} (h : goodLabelL cs = true) :
    pyStripL (cs ++ ['\n']) = cs := by
  obtain ⟨hne, _, _, hhead, hlast⟩ := goodLabelL_parts h
  unfold pyStripL
  have hne' : cs ++ ['\n'] ≠ [] := by simp
  have hhead' : isPySpace ((cs ++ ['\n']).headD 'x') = false := by
    cases cs with
    | nil => exact absurd rfl hne
    | cons ch rest => exact hhead
  rw [dropWhile_eq_self_of_head hne' hhead']
  have hrev : (cs ++ ['\n']).reverse = '\n' :: cs.reverse := by
    rw [List.reverse_append]; rfl
  rw [hrev, List.dropWhile_cons]
  rw [show isPySpace '\n' = true from rfl]
  simp only [if_pos]
  have hrevne : cs.reverse ≠ [] := by simpa using hne
  have hrevhead : isPySpace (cs.reverse.headD 'x') = false := by
    rw [headD_reverse]; exact hlast
  rw [dropWhile_eq_self_of_head hrevne hrevhead, List.reverse_reverse]

lemma linesKeepAux_append_nl : ∀ (l acc rest : List Char), '\n' ∉ l →
    linesKeepAux acc (l ++ '\n' :: rest) =
      (acc.reverse ++ l ++ ['\n']) :: linesKeepAux [] rest := by
  intro l
  induction l with
  | nil => intro acc rest _; simp [linesKeepAux]
  | cons ch t ih =>
    intro acc rest h
    have hc : ch ≠ '\n' := fun hcc => h (hcc ▸ List.mem_cons_self ch t)
    have ht : '\n' ∉ t := fun htt => h (List.mem_cons_of_mem ch htt)
    rw [List.cons_append]
    show linesKeepAux acc (ch :: (t ++ '\n' :: rest)) = _
    rw [linesKeepAux, if_neg hc, ih (ch :: acc) rest ht]
    simp

lemma linesKeepAux_no_nl : ∀ (l acc : List Char), '\n' ∉ l → l ≠ [] →
    linesKeepAux acc l = [acc.reverse ++ l] := by
  intro l
  induction l with
  | nil => intro acc _ hne; exact absurd rfl hne
  | cons ch t ih =>
    intro acc h _
    have hc : ch ≠ '\n' := fun hcc => h (hcc ▸ List.mem_cons_self ch t)
    have ht : '\n' ∉ t := fun htt => h (List.mem_cons_of_mem ch htt)
    rw [linesKeepAux, if_neg hc]
    cases hte : t with
    | nil =>
      show linesKeepAux (ch :: acc) [] = _
      rw [linesKeepAux]
      simp
    | cons c2 t2 =>
      rw [← hte, ih (ch :: acc) ht (by rw [hte]; exact List.cons_ne_nil c2 t2)]
      simp

lemma joinNlL_no_cr : ∀ Ls : List (List Char), (∀ l ∈ Ls, '\r' ∉ l) →
    '\r' ∉ joinNlL Ls := by
  intro Ls
  induction Ls with
  | nil => intro _ h; simp [joinNlL] at h
  | cons l Ls' ih =>
    intro hall
    cases Ls' with
    | nil =>
      simpa [joinNlL] using hall l (List.mem_cons_self l [])
    | cons l2 Ls'' =>
      intro hmem
      rw [show joinNlL (l :: l2 :: Ls'') = l ++ '\n' :: joinNlL (l2 :: Ls'') from rfl] at hmem
      rcases List.mem_append.mp hmem with h1 | h2
      · exact hall l (List.mem_cons_self l (l2 :: Ls'')) h1
      · rcases List.mem_cons.mp h2 with h3 | h4
        · exact absurd h3 (by decide)
        · exact ih (fun x hx => hall x (List.mem_cons_of_mem l hx)) h4

lemma readlines_join_strip : ∀ Ls : List (List Char),
    (∀ l ∈ Ls, goodLabelL l = true) →
    (pyReadlines (joinNlL Ls)).map pyStripL = Ls := by
  intro Ls
  induction Ls with
  | nil => intro _; rfl
  | cons l Ls' ih =>
    intro hgood
    have hg : goodLabelL l = true := hgood l (List.mem_cons_self l Ls')
    obtain ⟨hne, hnl, _, _, _⟩ := goodLabelL_parts hg
    cases Ls' with
    | nil =>
      rw [show joinNlL [l] = l from rfl]
      unfold pyReadlines
      rw [linesKeepAux_no_nl l [] hnl hne]
      simp [pyStripL_of_good hg]
    | cons l2 Ls'' =>
      rw [show joinNlL (l :: l2 :: Ls'') = l ++ '\n' :: joinNlL (l2 :: Ls'') from rfl]
      unfold pyReadlines
      rw [linesKeepAux_append_nl l [] _ hnl]
      rw [List.map_cons]
      have hrest := ih (fun x hx => hgood x (List.mem_cons_of_mem l hx))
      unfold pyReadlines at hrest
      rw [hrest]
      simp [pyStripL_append_nl hg]

lemma map_mk_data : ∀ ls : List String, (ls.map String.data).map String.mk = ls := by
  intro ls
  induction ls with
  | nil => rfl
  | cons s t ih =>
    rw [List.map_cons, List.map_cons, show String.mk s.data = s from rfl, ih]

/-- A concrete trained classifier whose single label carries a leading space. -/
def cBad : Classifier :=
  { wvmodel := wvEx, vecsize := 1, maxlen := 1, with_gensim := false,
    trained := true, classlabels := [" a"], model := some 0 }

/-- Claim C4, counterexample: the save-then-load round trip does not recover
the label list for every trained state: the label `" a"` is written verbatim
but read back `strip`ped, as `"a"`. -/
theorem c4_roundtrip_counterexample :
    cBad.classlabels = [" a"] ∧
    (savemodel cBad).toOption.map (fun p => (loadmodel cBad p.2).classlabels) =
      some ["a"] ∧
    (savemodel cBad).toOption.map (fun p => (loadmodel cBad p.2).classlabels) ≠
      some cBad.classlabels := by
  refine ⟨rfl, by decide, by decide⟩

/-- Claim C4 as amended: after `savemodel` followed by `loadmodel` on the
written files, the recovered `with_gensim` flag always equals the saved one;
and when every saved label is nonempty, contains no newline or
carriage-return character, and neither starts nor ends with whitespace, the
recovered label list equals the saved one, element for element and in
order. -/
theorem c4_roundtrip_amended (c d c' : Classifier) (files : SavedFiles)
    (htr : c.trained = true)
    (hsave : savemodel c = Except.ok (c', files)) :
    (loadmodel d files).with_gensim = c.with_gensim ∧
    ((∀ l ∈ c.classlabels, goodLabel l = true) →
      (loadmodel d files).classlabels = c.classlabels) := by
  unfold savemodel at hsave
  rw [if_neg (by simp [htr])] at hsave
  have hp := congrArg Prod.snd (Except.ok.inj hsave)
  subst hp
  constructor
  · simp [loadmodel]
  · intro hgood
    have hgoodL : ∀ l ∈ c.classlabels.map String.data, goodLabelL l = true := by
      intro l hl
      rcases List.mem_map.mp hl with ⟨s, hs, rfl⟩
      exact hgood s hs
    simp only [loadmodel]
    have hcr : '\r' ∉ joinNlL (c.classlabels.map String.data) := by
      apply joinNlL_no_cr
      intro l hl
      exact (goodLabelL_parts (hgoodL l hl)).2.2.1
    rw [normNewlines_of_no_cr _ hcr]
    have h1 : (pyReadlines (joinNlL (c.classlabels.map String.data))).map pyStripL =
        c.classlabels.map String.data := readlines_join_strip _ hgoodL
    calc (pyReadlines (joinNlL (c.classlabels.map String.data))).map
            (fun l => String.mk (pyStripL l))
        = ((pyReadlines (joinNlL (c.classlabels.map String.data))).map
            pyStripL).map String.mk := by rw [List.map_map]; rfl
      _ = (c.classlabels.map String.data).map String.mk := by rw [h1]
      _ = c.classlabels := map_mk_data c.classlabels

theorem c4_roundtrip_amended_witness :
    (loadmodel cEx filesExT).with_gensim = cExT.with_gensim ∧
    (loadmodel cEx filesExT).classlabels = cExT.classlabels :=
  have h := c4_roundtrip_amended cExT cEx cExT filesExT rfl rfl
  ⟨h.1, h.2 (by decide)⟩

end VarNN
